import Mathlib

/-!
Verification development for the cni-basic repository (a Go CNI plugin).

The Go sources embedded here:
  * `src/pkg/ippool.go`   — the persistent IP address pool (`IpPool`,
    `NewIpPool`, `AllocateIP`, `ReleaseIP`, `Save`, `Load`);
  * `src/unnamed/part_001` (`main.go`) — the command orchestrator
    (`cmdAdd`, `validateEnvironment`, `main` dispatch).

Modelling conventions:
  * Go machine integers are modelled as `Nat` (all reachable values are
    non-negative); byte arithmetic carries an explicit `% 256`.
  * Go byte slices (`net.IP`, the allocation bitmap) are `List Nat`; a nil
    `net.IP` is the empty list.
  * Fallible Go code returns `Except` / `Option`; `log.Fatalf` and panics
    in constructors are modelled by returning `none`.
  * Out-of-range slice accesses panic in Go; the model reads them through
    `List.getD` with a default that makes the scan skip such indices.  All
    theorems about loops carry well-formedness hypotheses that keep every
    access in bounds, where the two semantics coincide.
  * Kernel-level netlink calls and the filesystem are external effects;
    they are modelled as explicit stores / success oracles.
-/

/-! ## Go standard library fragments: `net.ParseIP`, `net.ParseCIDR`, `IP.To4` -/

/-- One dotted-decimal field of an IPv4 literal, per Go `net.ParseIP`
(go ≥ 1.17 semantics: 1–3 digits, no leading zero, value ≤ 255). -/
def parseOctet (l : List Char) : Option Nat :=
  if l = [] then none
  else if ¬ (l.all Char.isDigit) then none
  else if 3 < l.length then none
  else if 1 < l.length ∧ l.headD '0' = '0' then none
  else
    let v := l.foldl (fun a c => a * 10 + (c.toNat - 48)) 0
    if v ≤ 255 then some v else none

/-- Split a character list at every dot (Go field separation inside
`net.ParseIP`'s IPv4 path). -/
def splitDots : List Char → List (List Char)
  | [] => [[]]
  | c :: cs =>
    if c = '.' then [] :: splitDots cs
    else
      match splitDots cs with
      | [] => [[c]]
      | f :: r => (c :: f) :: r

/-- `net.ParseIP(s).To4()` for IPv4 dotted-quad literals: four valid octets
separated by dots, otherwise `none` (which also covers strings containing
`/` or `:`; IPv6 literals are out of scope for this repository's inputs,
where the argument is always a stored IPv4 CIDR or gateway string). -/
def parseIPv4 (s : List Char) : Option (Nat × Nat × Nat × Nat) :=
  match splitDots s with
  | [a, b, c, d] =>
    match parseOctet a, parseOctet b, parseOctet c, parseOctet d with
    | some x, some y, some z, some t => some (x, y, z, t)
    | _, _, _, _ => none
  | _ => none

/-- Split at the first `/`, as `net.ParseCIDR` does; `none` when no `/`
occurs (in which case `ParseCIDR` errors). -/
def splitAtSlash : List Char → Option (List Char × List Char)
  | [] => none
  | c :: cs =>
    if c = '/' then some ([], cs)
    else (splitAtSlash cs).map (fun p => (c :: p.1, p.2))

/-- Go `dtoi` as used by `net.ParseCIDR` on the prefix-length part:
a non-empty run of decimal digits (leading zeros accepted). -/
def parseDecimal (l : List Char) : Option Nat :=
  if l ≠ [] ∧ l.all Char.isDigit then
    some (l.foldl (fun a c => a * 10 + (c.toNat - 48)) 0)
  else none

/-- `net.ParseCIDR` for IPv4: returns the address quad and the prefix
length `ones` (what `ipNet.Mask.Size()` reports as its first component).
Prefix lengths above 32 are rejected, as Go does for a 4-byte address. -/
def parseCIDR (s : List Char) : Option ((Nat × Nat × Nat × Nat) × Nat) :=
  match splitAtSlash s with
  | none => none
  | some (addr, maskStr) =>
    match parseIPv4 addr with
    | none => none
    | some quad =>
      match parseDecimal maskStr with
      | none => none
      | some n => if n ≤ 32 then some (quad, n) else none

/-- `net.IP.To4`: a 4-byte slice is returned as is; a 16-byte
IPv4-in-IPv6 slice is shortened to its last 4 bytes; anything else
(including the empty slice) yields `none`. -/
def to4 (ip : List Nat) : Option (List Nat) :=
  if ip.length = 4 then some ip
  else if ip.length = 16 ∧ ip.take 12 = [0, 0, 0, 0, 0, 0, 0, 0, 0, 0, 255, 255] then
    some (ip.drop 12)
  else none

/-! ## `src/pkg/ippool.go`: the pool data model -/

/-- The `IpPool` struct of `src/pkg/ippool.go` (the runtime mutex is not
part of the sequential model; each invocation is single-threaded). -/
structure IpPool where
  poolName : String
  cidrRange : String
  path : String
  /-- `Gateway int` — an index into the allocation slice (never written by
  the repository's code; kept for the persistence model). -/
  gateway : Int
  totalIps : Nat
  lastAllocatedIP : Nat
  allocation : List Nat
deriving Repr, DecidableEq

/-- Errors returned by the pool operations, one constructor per
`fmt.Errorf` site in `src/pkg/ippool.go`. -/
inductive PoolErr where
  /-- "no more IPs available in the pool" (the `LastAllocatedIP >= TotalIps` guard). -/
  | noMoreIPs
  /-- "invalid CIDR range: %s" (`net.ParseIP(CidrRange).To4()` returned nil). -/
  | invalidCIDR (s : String)
  /-- "no available IPs in the pool" (both scans found no free slot). -/
  | noAvailable
  /-- "IP cannot be nil". -/
  | nilIP
  /-- "IP is not a valid IPv4 address". -/
  | notIPv4
  /-- "IP %s is out of range for the pool". -/
  | outOfRange (ip : List Nat)
  /-- "IP %s is not allocated". -/
  | notAllocated (ip : List Nat)
deriving Repr, DecidableEq

/-- `NewIpPool(poolName, cidrRange, path)`.  `log.Fatalf` (empty argument,
unparsable CIDR) and the panic of `make([]byte, n)` on a negative `n` are
modelled by `none`; `os.MkdirAll` is assumed to succeed.  Note the source
computes `size, _ := ipNet.Mask.Size()` — the PREFIX length — and sets
`TotalIps = 1<<size - 3`. -/
def newIpPool (poolName cidrRange path : String) : Option IpPool :=
  if poolName = "" ∨ cidrRange = "" ∨ path = "" then none
  else
    match parseCIDR cidrRange.toList with
    | none => none
    | some (_quad, ones) =>
      if 2 ^ ones < 3 then none
      else
        let total := 2 ^ ones - 3
        some { poolName := poolName, cidrRange := cidrRange, path := path,
               gateway := 0, totalIps := total, lastAllocatedIP := 0,
               allocation := List.replicate total 0 }

/-- The reverse scan of `AllocateIP`: `for i := LastAllocatedIP; i >= 0; i--`,
returning the first (hence greatest) index `≤ start` whose slot reads `0`.
Out-of-range reads default to `1` (allocated); in Go they would panic, and
every theorem keeps them in bounds. -/
def revFindFree (alloc : List Nat) : Nat → Option Nat
  | 0 => if alloc.getD 0 1 = 0 then some 0 else none
  | j + 1 => if alloc.getD (j + 1) 1 = 0 then some (j + 1) else revFindFree alloc j

/-- The forward scan of `AllocateIP`: `for i := LastAllocatedIP + 1; i < TotalIps; i++`,
returning the first free index in `[i, n)`. -/
def fwdFindFree (alloc : List Nat) (n : Nat) (i : Nat) : Option Nat :=
  if _h : i < n then
    if alloc.getD i 1 = 0 then some i else fwdFindFree alloc n (i + 1)
  else none
termination_by n - i

/-- `AllocateIP`: returns the updated pool together with the result.
Faithful details: the bitmap is marked (and, on the forward path,
`LastAllocatedIP` updated) BEFORE `net.ParseIP(CidrRange)` runs, so the
parse-failure path returns an error with the pool already mutated; a
reverse hit deliberately leaves `LastAllocatedIP` unchanged (the source
comments the assignment out); the returned address adds `byte(i+1)` to the
last byte of the parsed base address, with byte wraparound. -/
def allocateIP (p : IpPool) : IpPool × Except PoolErr (List Nat) :=
  if p.totalIps ≤ p.lastAllocatedIP then (p, .error .noMoreIPs)
  else
    match revFindFree p.allocation p.lastAllocatedIP with
    | some i =>
      let alloc := p.allocation.set i 1
      match parseIPv4 p.cidrRange.toList with
      | none => ({ p with allocation := alloc }, .error (.invalidCIDR p.cidrRange))
      | some (a, b, c, d) =>
        ({ p with allocation := alloc }, .ok [a, b, c, (d + (i + 1) % 256) % 256])
    | none =>
      match fwdFindFree p.allocation p.totalIps (p.lastAllocatedIP + 1) with
      | some i =>
        let alloc := p.allocation.set i 1
        match parseIPv4 p.cidrRange.toList with
        | none =>
          ({ p with allocation := alloc, lastAllocatedIP := i },
           .error (.invalidCIDR p.cidrRange))
        | some (a, b, c, d) =>
          ({ p with allocation := alloc, lastAllocatedIP := i },
           .ok [a, b, c, (d + (i + 1) % 256) % 256])
      | none => (p, .error .noAvailable)

/-- The walk-back loop of `ReleaseIP`:
`for i := LastAllocatedIP - 1; i >= 0; i--`, returning the first (hence
greatest) index `< k` whose slot reads `1`, if any. -/
def findAllocBelow (alloc : List Nat) : Nat → Option Nat
  | 0 => none
  | j + 1 => if alloc.getD j 0 = 1 then some j else findAllocBelow alloc j

/-- `ReleaseIP(ip)`: derives the bitmap index `ip4[3] - 1`, validates it,
clears the slot, and — when the released index equals `LastAllocatedIP` —
walks the high-water mark back to the nearest still-allocated index below
it, leaving it unchanged when none exists (the loop simply finds nothing). -/
def releaseIP (p : IpPool) (ip : List Nat) : IpPool × Option PoolErr :=
  if ip.isEmpty then (p, some .nilIP)
  else
    match to4 ip with
    | none => (p, some .notIPv4)
    | some q =>
      let b := q.getD 3 0
      if b = 0 then (p, some (.outOfRange ip))
      else
        let index := b - 1
        if p.totalIps ≤ index then (p, some (.outOfRange ip))
        else if p.allocation.getD index 0 = 0 then (p, some (.notAllocated ip))
        else
          let alloc := p.allocation.set index 0
          let last :=
            if index = p.lastAllocatedIP then
              (findAllocBelow alloc p.lastAllocatedIP).getD p.lastAllocatedIP
            else p.lastAllocatedIP
          ({ p with allocation := alloc, lastAllocatedIP := last }, none)

/-! ## `Save` / `Load`: JSON persistence of the pool

`Save` writes `json.Marshal(ipPool)` to `Path + "/" + PoolName + ".json"`;
`Load` reads that file and `json.Unmarshal`s into the receiver.  The JSON
document is modelled field by field: `gateway` and `allocation` carry the
`omitempty` tag (a zero gateway / empty bitmap is omitted and therefore
leaves the receiver's field untouched on unmarshal); the remaining fields
are always present and overwrite.  The filesystem is a map from file
names to stored documents. -/

/-- The serialized form of an `IpPool` (the JSON document layout of
`src/pkg/ippool.go`, with `omitempty` fields optional). -/
structure StoredPool where
  pool_name : String
  cidr_range : String
  path : String
  gateway : Option Int
  total_ips : Nat
  last_allocated_ip : Nat
  allocation : Option (List Nat)
deriving Repr, DecidableEq

/-- A filesystem: file name to stored pool document. -/
def PoolFS : Type := String → Option StoredPool

/-- The file `Save` writes and `Load` reads: `Path + "/" + PoolName + ".json"`. -/
def poolFile (p : IpPool) : String := p.path ++ "/" ++ p.poolName ++ ".json"

/-- `json.Marshal` of an `IpPool` (omitting `gateway` when zero and
`allocation` when empty, per their `omitempty` tags). -/
def marshalPool (p : IpPool) : StoredPool :=
  { pool_name := p.poolName, cidr_range := p.cidrRange, path := p.path,
    gateway := if p.gateway = 0 then none else some p.gateway,
    total_ips := p.totalIps, last_allocated_ip := p.lastAllocatedIP,
    allocation := if p.allocation = [] then none else some p.allocation }

/-- `json.Unmarshal` of a stored document into an existing pool object:
present fields overwrite, omitted fields keep the receiver's value. -/
def unmarshalPool (d : StoredPool) (p : IpPool) : IpPool :=
  { poolName := d.pool_name, cidrRange := d.cidr_range, path := d.path,
    gateway := d.gateway.getD p.gateway,
    totalIps := d.total_ips, lastAllocatedIP := d.last_allocated_ip,
    allocation := d.allocation.getD p.allocation }

/-- `Save`: write the marshalled pool under its file name. -/
def savePool (p : IpPool) (fs : PoolFS) : PoolFS :=
  fun k => if k = poolFile p then some (marshalPool p) else fs k

/-- `Load`: read the pool's file and unmarshal into the receiver; a
missing file is the `os.ReadFile` error path. -/
def loadPool (p : IpPool) (fs : PoolFS) : Except String IpPool :=
  match fs (poolFile p) with
  | none => .error "failed to read IP pool data"
  | some d => .ok (unmarshalPool d p)

/-- A fresh pool object bound to a pool name and storage path, all other
fields at their Go zero values (`var p IpPool` plus the two fields). -/
def freshPool (name storagePath : String) : IpPool :=
  { poolName := name, cidrRange := "", path := storagePath,
    gateway := 0, totalIps := 0, lastAllocatedIP := 0, allocation := [] }

/-! ## `src/unnamed/part_001` (`main.go`): links and the bridge section of `cmdAdd` -/

/-- A netlink link as far as this plugin observes it. -/
structure Link where
  name : String
  linkType : String
  mtu : Int
  up : Bool
deriving Repr, DecidableEq

/-- The host's link table. -/
def LinkStore : Type := List Link

/-- `netlink.LinkByName`: the link with that name, or an error. -/
def linkByName (st : LinkStore) (nm : String) : Except String Link :=
  match st.find? (fun l => l.name = nm) with
  | some l => .ok l
  | none => .error ("Link " ++ nm ++ " not found")

/-- The bridge section of `cmdAdd` (`main.go` lines 146–172):

```
if bridge, err = netlink.LinkByName(config.Bridge); err != nil {
    if err != nil { return fmt.Errorf("failed to get bridge %s: %v", ...) }
    if bridge == nil { ... netlink.LinkAdd(link); netlink.LinkSetUp(link) ... }
}
```

The outer condition is `err != nil`, and the first statement inside
re-checks the same `err` and returns — so the `bridge == nil` block that
would create the bridge (`LinkAdd` with the configured name and MTU,
then `LinkSetUp`) can never execute.  The model returns the unchanged
store together with the section's outcome: the existing link, or the
"failed to get bridge" error. -/
def cmdAddEnsureBridge (st : LinkStore) (bridgeName : String) (_mtu : Int) :
    LinkStore × Except String Link :=
  match linkByName st bridgeName with
  | .error e => (st, .error ("failed to get bridge " ++ bridgeName ++ ": " ++ e))
  | .ok l => (st, .ok l)

/-! ## `main.go`: environment validation and command dispatch -/

/-- The CNI environment variables (`Environment` struct of `main.go`). -/
structure Environment where
  command : String
  containerID : String
  netNS : String
  ifName : String
  args : String
  searchPath : String
deriving Repr, DecidableEq

/-- `validateEnvironment`: `CNI_COMMAND` must be set; for every command
other than `VERSION`, `CNI_CONTAINERID`, `CNI_NETNS` and `CNI_IFNAME`
must be set as well. -/
def validateEnvironment (env : Environment) : Except String Unit :=
  if env.command = "" then .error "CNI_COMMAND not set"
  else if env.command ≠ "VERSION" then
    if env.containerID = "" then .error "CNI_CONTAINERID not set"
    else if env.netNS = "" then .error "CNI_NETNS not set"
    else if env.ifName = "" then .error "CNI_IFNAME not set"
    else .ok ()
  else .ok ()

/-- The network configuration parsed from stdin (fields of `NetworkConfig`
that the dispatch layer sees; the command handlers are modelled separately). -/
structure NetworkConfig where
  cniVersion : String
  bridge : String
  subnet : String
  gatewayAddr : String
  mtu : Int
deriving Repr, DecidableEq

/-- What one invocation of `main` observably produces. -/
inductive MainOutcome where
  /-- `sendError(code, msg, ...)` followed by `os.Exit(1)`. -/
  | errorExit (code : Nat) (msg : String)
  /-- `cmdVersion()`: the VERSION document with the supported versions list. -/
  | versionOut (cniVersion : String) (supported : List String)
  /-- control reached the `switch` and entered the named command handler. -/
  | dispatched (command : String)
deriving Repr, DecidableEq

/-- The `main` function of `main.go` up to command dispatch: validate the
environment (exit code 4 on failure), answer `VERSION` before reading any
configuration, then parse stdin (exit code 7 on failure) and switch on the
command (unknown commands exit with code 4).  `configResult` stands for
`parseConfig()`'s outcome. -/
def mainRun (env : Environment) (configResult : Except String NetworkConfig) :
    MainOutcome :=
  match validateEnvironment env with
  | .error _ => .errorExit 4 "Invalid environment variables"
  | .ok _ =>
    if env.command = "VERSION" then
      .versionOut "1.1.0" ["0.4.0", "1.0.0", "1.1.0"]
    else
      match configResult with
      | .error _ => .errorExit 7 "Invalid network configuration"
      | .ok _ =>
        match env.command with
        | "ADD" => .dispatched "ADD"
        | "DEL" => .dispatched "DEL"
        | "CHECK" => .dispatched "CHECK"
        | _ => .errorExit 4 "Unknown command"

/-! ## The operation sequence of `cmdAdd` after the bridge section

`cmdAdd` (`main.go` lines 174–298) is a straight line of external calls,
each followed by `if err != nil { return ... }`.  The model lists the
calls in source order together with whether each succeeds (external
netlink/storage calls through success oracles, the in-repository parsing
and pool allocation through the real definitions above) and runs the list
until the first failure, recording the operations actually performed. -/

/-- The external operations `cmdAdd` performs after obtaining the bridge,
in source order. -/
inductive NetOp where
  /-- `netlink.LinkAdd(veth)` — create the veth pair (line 191). -/
  | linkAddVeth
  /-- `netlink.LinkByName(env.IfName)` (line 196; its error is discarded:
  line 197 overwrites `err`). -/
  | linkByNameIf
  /-- `netlink.LinkSetNsPid(containerVeth, env.PID)` — move the
  container-side end into the target namespace (line 197). -/
  | linkSetNsPid
  /-- `netlink.LinkByName("veth-" + strippedID)` (line 203). -/
  | linkByNamePeer
  /-- `netlink.LinkSetMaster(peerVeth, bridge)` — attach the host peer to
  the bridge as a port (line 207). -/
  | linkSetMaster
  /-- `netlink.LinkSetUp(containerVeth)` (line 213). -/
  | linkSetUpContainer
  /-- `netlink.LinkSetUp(peerVeth)` (line 218). -/
  | linkSetUpPeer
  /-- `net.ParseCIDR(config.Subnet)` (line 224). -/
  | parseSubnet
  /-- `net.ParseIP(config.Gateway)` non-nil check (lines 230–233). -/
  | parseGateway
  /-- `netlink.AddrAdd(bridge, gatewayAddr)` — bind the gateway address to
  the bridge (line 242). -/
  | addrAddBridge
  /-- `ipPool.Load()` (line 251). -/
  | loadPoolCall
  /-- `ipPool.AllocateIP()` (line 255). -/
  | allocateIPCall
  /-- `netlink.AddrAdd(containerVeth, addr)` — assign the allocated
  address to the container-side link (line 268). -/
  | addrAddContainer
deriving Repr, DecidableEq

/-- Success oracles for the external calls of `cmdAdd`, plus the pool
state its `Load` produces (the allocation step then runs the real
`allocateIP` on it). -/
structure AddWorld where
  linkAddVethOk : Bool
  setNsPidOk : Bool
  linkByNamePeerOk : Bool
  setMasterOk : Bool
  setUpContainerOk : Bool
  setUpPeerOk : Bool
  addrAddBridgeOk : Bool
  loadOk : Bool
  addrAddContainerOk : Bool
  loadedPool : IpPool

/-- Whether an `Except` result is a success. -/
def exceptOk {ε α : Type} : Except ε α → Bool
  | .ok _ => true
  | .error _ => false

/-- The calls of `cmdAdd` lines 174–270 in source order, each with its
outcome.  `linkByNameIf` never aborts because the source discards its
error (`err` is overwritten on the next line). -/
def cmdAddSteps (w : AddWorld) (subnet gatewayAddr : String) : List (NetOp × Bool) :=
  [(.linkAddVeth, w.linkAddVethOk),
   (.linkByNameIf, true),
   (.linkSetNsPid, w.setNsPidOk),
   (.linkByNamePeer, w.linkByNamePeerOk),
   (.linkSetMaster, w.setMasterOk),
   (.linkSetUpContainer, w.setUpContainerOk),
   (.linkSetUpPeer, w.setUpPeerOk),
   (.parseSubnet, (parseCIDR subnet.toList).isSome),
   (.parseGateway, (parseIPv4 gatewayAddr.toList).isSome),
   (.addrAddBridge, w.addrAddBridgeOk),
   (.loadPoolCall, w.loadOk),
   (.allocateIPCall, exceptOk (allocateIP w.loadedPool).2),
   (.addrAddContainer, w.addrAddContainerOk)]

/-- Run a list of steps in order, stopping after the first failing one
(the `if err != nil { return err }` pattern): the performed operations and
whether the whole sequence succeeded. -/
def runSteps : List (NetOp × Bool) → List NetOp × Bool
  | [] => ([], true)
  | (e, ok) :: rest =>
    if ok then
      let r := runSteps rest
      (e :: r.1, r.2)
    else ([e], false)

/-- The trace of `cmdAdd` after the bridge section: operations performed,
and overall success. -/
def cmdAddRun (w : AddWorld) (subnet gatewayAddr : String) : List NetOp × Bool :=
  runSteps (cmdAddSteps w subnet gatewayAddr)

/-- The static source order of the calls in `cmdAdd` lines 174–270
(`cmdAddSteps` with the outcomes stripped). -/
def cmdAddOps : List NetOp :=
  [.linkAddVeth, .linkByNameIf, .linkSetNsPid, .linkByNamePeer, .linkSetMaster,
   .linkSetUpContainer, .linkSetUpPeer, .parseSubnet, .parseGateway,
   .addrAddBridge, .loadPoolCall, .allocateIPCall, .addrAddContainer]

/-- A world in which every external call succeeds and the loaded pool can
actually allocate (its stored CIDR field is a plain IPv4 string). -/
def addWorldAllOk : AddWorld :=
  ⟨true, true, true, true, true, true, true, true, true,
   ⟨"p", "10.0.0.0", "/s", 0, 1, 0, [0]⟩⟩

/-- A concrete pool state used to evaluate the release semantics:
indices 0 and 2 allocated, high-water mark at 2.  Reachable in spirit via
two forward allocations, one more, and a release of index 1. -/
def pool6 : IpPool :=
  ⟨"pool6", "10.0.0.0/24", "/var/lib/cni", 0, 3, 2, [1, 0, 1]⟩

/-! ## Helper lemmas -/

deriving instance DecidableEq for Except

/-- Reading inside a `replicate` always yields the replicated element. -/
theorem replicate_getD_eq (a d n i : Nat) (h : i < n) :
    (List.replicate n a).getD i d = a := by
  induction n generalizing i with
  | zero => omega
  | succ n ih =>
    cases i with
    | zero => simp [List.replicate_succ]
    | succ i =>
      rw [List.replicate_succ, List.getD_cons_succ]
      exact ih i (by omega)

/-- On a pool whose bitmap is all-free with the high-water mark at 0 and
whose stored CIDR string does not parse as a plain IPv4 address,
`AllocateIP` takes the reverse-scan hit at index 0 and then fails on
`net.ParseIP(CidrRange)`. -/
theorem allocateIP_fresh_badcidr (p : IpPool) (h0 : 0 < p.totalIps)
    (hl : p.lastAllocatedIP = 0) (ha : p.allocation = List.replicate p.totalIps 0)
    (hp : parseIPv4 p.cidrRange.toList = none) :
    (allocateIP p).2 = .error (.invalidCIDR p.cidrRange) := by
  have hguard : ¬ (p.totalIps ≤ p.lastAllocatedIP) := by omega
  have hrev : revFindFree p.allocation p.lastAllocatedIP = some 0 := by
    rw [hl, revFindFree, ha, replicate_getD_eq 0 1 p.totalIps 0 h0]
    simp
  unfold allocateIP
  rw [if_neg hguard, hrev, hp]

/-- Every error path of `ReleaseIP` returns before mutating the pool. -/
theorem releaseIP_err_or_unchanged (p : IpPool) (ip : List Nat) :
    (releaseIP p ip).2 = none ∨ (releaseIP p ip).1 = p := by
  unfold releaseIP
  split
  · exact Or.inr rfl
  · split
    · exact Or.inr rfl
    · dsimp only
      split_ifs <;> simp

/-- When the walk-back loop finds an index, it is the greatest allocated
index strictly below the start. -/
theorem findAllocBelow_some (alloc : List Nat) (k j : Nat)
    (h : findAllocBelow alloc k = some j) :
    j < k ∧ alloc.getD j 0 = 1 ∧ ∀ m, j < m → m < k → alloc.getD m 0 ≠ 1 := by
  induction k with
  | zero => cases h
  | succ k ih =>
    rw [findAllocBelow] at h
    by_cases hk : alloc.getD k 0 = 1
    · rw [if_pos hk] at h
      cases h
      exact ⟨Nat.lt_succ_self _, hk, fun m hm1 hm2 => by omega⟩
    · rw [if_neg hk] at h
      obtain ⟨h1, h2, h3⟩ := ih h
      refine ⟨by omega, h2, fun m hm1 hm2 => ?_⟩
      rcases Nat.lt_succ_iff_lt_or_eq.mp hm2 with hm | hm
      · exact h3 m hm1 hm
      · rw [hm]; exact hk

/-- When the walk-back loop finds nothing, no index below the start is
allocated. -/
theorem findAllocBelow_none (alloc : List Nat) (k : Nat)
    (h : findAllocBelow alloc k = none) : ∀ m, m < k → alloc.getD m 0 ≠ 1 := by
  induction k with
  | zero => exact fun m hm => by omega
  | succ k ih =>
    rw [findAllocBelow] at h
    by_cases hk : alloc.getD k 0 = 1
    · rw [if_pos hk] at h; cases h
    · rw [if_neg hk] at h
      intro m hm
      rcases Nat.lt_succ_iff_lt_or_eq.mp hm with hm' | hm'
      · exact ih h m hm'
      · rw [hm']; exact hk

/-! ## Claim theorems -/

/-- C1: Pool sizing.  The claim says `NewIpPool` on a valid CIDR with `h`
host bits yields `totalAddresses = 2^h − 3`, hence 253 for `10.0.0.0/24`.
The source instead uses the PREFIX length returned by `Mask.Size()`
(`size, _ := ipNet.Mask.Size(); TotalIps = 1<<size - 3`), so the
constructed pool for `10.0.0.0/24` has `TotalIps = 2^24 − 3 = 16777213`,
not `2^8 − 3 = 253`. -/
theorem newIpPool_slash24_totalIps :
    (newIpPool "pool0" "10.0.0.0/24" "/var/lib/cni").map (·.totalIps)
      = some 16777213 := by decide

/-- C2: Bridge ensure-idempotency in ADD.  When the configured bridge name
resolves to no existing link, `cmdAdd` returns a "failed to get bridge"
error without creating anything (the creation block sits below an
unconditional early return and is unreachable); when the link exists it is
returned unchanged.  Evaluated on an empty link table and on a table
already holding the bridge. -/
theorem cmdAdd_bridge_absent_errors :
    cmdAddEnsureBridge [] "cni0" 1500
        = ([], .error "failed to get bridge cni0: Link cni0 not found")
    ∧ cmdAddEnsureBridge [⟨"cni0", "bridge", 1500, true⟩] "cni0" 1500
        = ([⟨"cni0", "bridge", 1500, true⟩], .ok ⟨"cni0", "bridge", 1500, true⟩) :=
  ⟨rfl, rfl⟩

/-- C3: Allocation search policy.  On a pool with `lastAllocatedIP = 2`
and index 1 freed (indices 0 and 2 allocated), `AllocateIP` does take the
reverse-scan hit: it marks index 1 and leaves `lastAllocatedIP = 2` — but
it then returns the error `invalid CIDR range: 10.0.0.0/24` instead of
the address at index 1, because the source materializes the address with
`net.ParseIP(CidrRange)` and the stored CIDR string never parses as a
plain IP. -/
theorem allocateIP_reverse_hit_marks_but_errors :
    allocateIP ⟨"pool2", "10.0.0.0/24", "/var/lib/cni", 0, 3, 2, [1, 0, 1]⟩
      = (⟨"pool2", "10.0.0.0/24", "/var/lib/cni", 0, 3, 2, [1, 1, 1]⟩,
         .error (.invalidCIDR "10.0.0.0/24")) := by decide

/-- C4: Address materialization.  For the pool constructed over
`10.0.0.0/24`, the first `AllocateIP` call does not return `10.0.0.2`: it
returns the error `invalid CIDR range: 10.0.0.0/24`, because
`net.ParseIP` is applied to the stored CIDR string (which contains `/`)
and yields nil. -/
theorem allocateIP_slash24_first_call_errors :
    (newIpPool "pool0" "10.0.0.0/24" "/var/lib/cni").map (fun p => (allocateIP p).2)
      = some (.error (.invalidCIDR "10.0.0.0/24")) := by
  have h1 : ¬ ("pool0" = "" ∨ "10.0.0.0/24" = "" ∨ "/var/lib/cni" = "") := by decide
  have h2 : parseCIDR ("10.0.0.0/24".toList) = some ((10, 0, 0, 0), (24 : Nat)) := by
    decide
  have h3 : ¬ ((2 : Nat) ^ 24 < 3) := by norm_num
  have hP : newIpPool "pool0" "10.0.0.0/24" "/var/lib/cni"
      = some { poolName := "pool0", cidrRange := "10.0.0.0/24",
               path := "/var/lib/cni", gateway := 0, totalIps := 2 ^ 24 - 3,
               lastAllocatedIP := 0, allocation := List.replicate (2 ^ 24 - 3) 0 } := by
    unfold newIpPool
    rw [if_neg h1, h2]
    dsimp only
    rw [if_neg h3]
  rw [hP, Option.map_some']
  exact congrArg some (allocateIP_fresh_badcidr _ (by norm_num) rfl rfl (by decide))

/-- C5: Exhaustion.  A pool with `totalAddresses = 1` (constructed from
`10.0.0.0/2`, since `1<<2 - 3 = 1`) does not admit one successful
allocation followed by a `PoolExhaustedError`: already the FIRST
`AllocateIP` call fails with `invalid CIDR range` (while still marking
slot 0), so a freshly constructed pool admits zero successful
allocations. -/
theorem allocateIP_pool1_first_call_errors :
    (newIpPool "pool1" "10.0.0.0/2" "/var/lib/cni").map
        (fun p => (p.totalIps, (allocateIP p).2))
      = some (1, .error (.invalidCIDR "10.0.0.0/2")) := by decide

/-- C9: VERSION command.  With `CNI_COMMAND=VERSION` and every other
environment parameter empty, validation succeeds and `main` answers with
the supported protocol versions before ever inspecting the stdin
configuration (the statement holds for every configuration-parse
outcome). -/
theorem version_command_needs_no_environment :
    ∀ configResult : Except String NetworkConfig,
      validateEnvironment ⟨"VERSION", "", "", "", "", ""⟩ = .ok ()
      ∧ mainRun ⟨"VERSION", "", "", "", "", ""⟩ configResult
          = .versionOut "1.1.0" ["0.4.0", "1.0.0", "1.1.0"] :=
  fun _ => ⟨rfl, rfl⟩

/-- C10: Release atomicity on error.  Whenever `ReleaseIP` returns an
error — nil input, non-IPv4 input, derived index out of range, or slot
already free — the pool (bitmap and `lastAllocatedIP`) is returned
unchanged. -/
theorem releaseIP_error_leaves_pool_unchanged (p : IpPool) (ip : List Nat)
    (e : PoolErr) (h : (releaseIP p ip).2 = some e) : (releaseIP p ip).1 = p := by
  rcases releaseIP_err_or_unchanged p ip with h' | h'
  · rw [h] at h'; cases h'
  · exact h'

/-- C10 witness: releasing a nil IP from a concrete pool errors and
leaves the pool exactly as it was. -/
theorem releaseIP_error_leaves_pool_unchanged_witness :
    (releaseIP ⟨"pw", "10.0.0.0/24", "/var/lib/cni", 0, 2, 1, [0, 1]⟩ []).1
      = ⟨"pw", "10.0.0.0/24", "/var/lib/cni", 0, 2, 1, [0, 1]⟩ :=
  releaseIP_error_leaves_pool_unchanged _ [] .nilIP (by decide)

/-- C7: Persistence round-trip.  For every pool state and filesystem,
`Save` followed by `Load` into a fresh pool object bound to the same pool
name and storage path succeeds and reproduces the allocation bitmap, the
last-allocated index, and the total address count. -/
theorem save_load_roundtrip (p : IpPool) (fs : PoolFS) :
    ∃ q, loadPool (freshPool p.poolName p.path) (savePool p fs) = .ok q
       ∧ q.allocation = p.allocation
       ∧ q.lastAllocatedIP = p.lastAllocatedIP
       ∧ q.totalIps = p.totalIps := by
  refine ⟨unmarshalPool (marshalPool p) (freshPool p.poolName p.path), ?_, ?_, rfl, rfl⟩
  · unfold loadPool savePool
    rw [show poolFile (freshPool p.poolName p.path) = poolFile p from rfl, if_pos rfl]
  · unfold unmarshalPool marshalPool freshPool
    by_cases h : p.allocation = [] <;> simp [h]


/-- C6 counterexample: releasing the address at index 1 when
`lastAllocatedIP = 1` and no lower index is allocated does NOT move the
high-water mark to any "none" sentinel — it stays at 1, the released
index, whose slot is now free. -/
theorem releaseIP_no_sentinel :
    releaseIP ⟨"pool3", "10.0.0.0/24", "/var/lib/cni", 0, 2, 1, [0, 1]⟩ [10, 0, 0, 2]
      = (⟨"pool3", "10.0.0.0/24", "/var/lib/cni", 0, 2, 1, [0, 0]⟩, none) := by decide

/-- C6 (amended): for a valid IPv4 input, `ReleaseIP` fails exactly when
the derived bitmap index (`hostOctet − 1`) is out of range or the slot is
already free; otherwise it clears the slot, leaves the high-water mark
alone when the released index differs from it, and when they coincide
walks it back to the nearest still-allocated index below — leaving it
unchanged at the released index when no allocated index remains below
(the field has no "none" sentinel). -/
theorem releaseIP_spec (p : IpPool) (ip q : List Nat) (hq : to4 ip = some q) :
    (((releaseIP p ip).2 ≠ none) ↔
        (q.getD 3 0 = 0 ∨ p.totalIps ≤ q.getD 3 0 - 1
          ∨ p.allocation.getD (q.getD 3 0 - 1) 0 = 0))
    ∧ ((releaseIP p ip).2 = none →
        (releaseIP p ip).1.allocation = p.allocation.set (q.getD 3 0 - 1) 0
        ∧ (q.getD 3 0 - 1 ≠ p.lastAllocatedIP →
            (releaseIP p ip).1.lastAllocatedIP = p.lastAllocatedIP)
        ∧ (q.getD 3 0 - 1 = p.lastAllocatedIP →
            ((∃ j, j < p.lastAllocatedIP
                ∧ (p.allocation.set (q.getD 3 0 - 1) 0).getD j 0 = 1
                ∧ (∀ m, j < m → m < p.lastAllocatedIP →
                    (p.allocation.set (q.getD 3 0 - 1) 0).getD m 0 ≠ 1)
                ∧ (releaseIP p ip).1.lastAllocatedIP = j)
             ∨ ((∀ m, m < p.lastAllocatedIP →
                    (p.allocation.set (q.getD 3 0 - 1) 0).getD m 0 ≠ 1)
                ∧ (releaseIP p ip).1.lastAllocatedIP = p.lastAllocatedIP)))) := by
  have hne : ip.isEmpty = false := by
    cases ip with
    | nil => simp [to4] at hq
    | cons a l => rfl
  simp only [List.getD_eq_getElem?_getD]
  by_cases hb : (q[3]?).getD 0 = 0
  · have hrel : releaseIP p ip = (p, some (.outOfRange ip)) := by
      simp [releaseIP, hne, hq, hb]
    rw [hrel]
    exact ⟨by simp [hb], by simp⟩
  · by_cases hr : p.totalIps ≤ (q[3]?).getD 0 - 1
    · have hrel : releaseIP p ip = (p, some (.outOfRange ip)) := by
        simp [releaseIP, hne, hq, hb, hr]
      rw [hrel]
      exact ⟨by simp [hr], by simp⟩
    · by_cases hfree : (p.allocation[(q[3]?).getD 0 - 1]?).getD 0 = 0
      · have hrel : releaseIP p ip = (p, some (.notAllocated ip)) := by
          simp [releaseIP, hne, hq, hb, hr, hfree]
        rw [hrel]
        exact ⟨by simp [hfree], by simp⟩
      · have hrel : releaseIP p ip =
            ({ p with
                allocation := p.allocation.set ((q[3]?).getD 0 - 1) 0,
                lastAllocatedIP :=
                  if (q[3]?).getD 0 - 1 = p.lastAllocatedIP then
                    (findAllocBelow (p.allocation.set ((q[3]?).getD 0 - 1) 0)
                        p.lastAllocatedIP).getD p.lastAllocatedIP
                  else p.lastAllocatedIP }, none) := by
          simp [releaseIP, hne, hq, hb, hr, hfree]
        rw [hrel]
        refine ⟨by simp [hb, hr, hfree], fun _ => ⟨rfl, ?_, ?_⟩⟩
        · intro hlast
          simp only [if_neg hlast]
        · intro hlast
          simp only [if_pos hlast]
          cases hfb : findAllocBelow (p.allocation.set ((q[3]?).getD 0 - 1) 0)
              p.lastAllocatedIP with
          | some j =>
            obtain ⟨h1, h2, h3⟩ := findAllocBelow_some _ _ _ hfb
            simp only [List.getD_eq_getElem?_getD] at h2 h3
            exact Or.inl ⟨j, h1, h2, h3, rfl⟩
          | none =>
            refine Or.inr ⟨?_, rfl⟩
            intro m hm
            have := findAllocBelow_none _ _ hfb m hm
            simpa [List.getD_eq_getElem?_getD] using this

/-- C6 witness: the amended release semantics evaluated on a concrete
pool (`lastAllocatedIP = 2`, slots 0 and 2 allocated) and the concrete
address `10.0.0.3`, whose release clears slot 2 and walks the high-water
mark back to index 0. -/
theorem releaseIP_spec_witness :
    to4 [10, 0, 0, 3] = some [10, 0, 0, 3]
    ∧ ((((releaseIP pool6 [10, 0, 0, 3]).2 ≠ none) ↔
          (([10, 0, 0, 3] : List Nat).getD 3 0 = 0
            ∨ pool6.totalIps ≤ ([10, 0, 0, 3] : List Nat).getD 3 0 - 1
            ∨ pool6.allocation.getD (([10, 0, 0, 3] : List Nat).getD 3 0 - 1) 0 = 0))
      ∧ ((releaseIP pool6 [10, 0, 0, 3]).2 = none →
          (releaseIP pool6 [10, 0, 0, 3]).1.allocation
            = pool6.allocation.set (([10, 0, 0, 3] : List Nat).getD 3 0 - 1) 0
          ∧ (([10, 0, 0, 3] : List Nat).getD 3 0 - 1 ≠ pool6.lastAllocatedIP →
              (releaseIP pool6 [10, 0, 0, 3]).1.lastAllocatedIP
                = pool6.lastAllocatedIP)
          ∧ (([10, 0, 0, 3] : List Nat).getD 3 0 - 1 = pool6.lastAllocatedIP →
              ((∃ j, j < pool6.lastAllocatedIP
                  ∧ (pool6.allocation.set
                      (([10, 0, 0, 3] : List Nat).getD 3 0 - 1) 0).getD j 0 = 1
                  ∧ (∀ m, j < m → m < pool6.lastAllocatedIP →
                      (pool6.allocation.set
                          (([10, 0, 0, 3] : List Nat).getD 3 0 - 1) 0).getD m 0 ≠ 1)
                  ∧ (releaseIP pool6 [10, 0, 0, 3]).1.lastAllocatedIP = j)
               ∨ ((∀ m, m < pool6.lastAllocatedIP →
                      (pool6.allocation.set
                          (([10, 0, 0, 3] : List Nat).getD 3 0 - 1) 0).getD m 0 ≠ 1)
                  ∧ (releaseIP pool6 [10, 0, 0, 3]).1.lastAllocatedIP
                      = pool6.lastAllocatedIP))))) :=
  ⟨by decide, releaseIP_spec pool6 [10, 0, 0, 3] [10, 0, 0, 3] (by decide)⟩

/-- The operations a run performs are the prefix of the static call list
up to and including the first failing step. -/
theorem runSteps_fst (l : List (NetOp × Bool)) :
    (runSteps l).1 = (l.map Prod.fst).take ((l.takeWhile Prod.snd).length + 1) := by
  induction l with
  | nil => rfl
  | cons hd tl ih =>
    obtain ⟨e, ok⟩ := hd
    cases ok with
    | false => simp [runSteps, List.takeWhile_cons]
    | true => simp [runSteps, List.takeWhile_cons, ih]

/-- A run succeeds exactly when every step succeeds. -/
theorem runSteps_snd (l : List (NetOp × Bool)) : (runSteps l).2 = l.all Prod.snd := by
  induction l with
  | nil => rfl
  | cons hd tl ih =>
    obtain ⟨e, ok⟩ := hd
    cases ok with
    | false => simp [runSteps]
    | true => simp [runSteps, ih]

/-- The step list of `cmdAdd` projects to the static call order. -/
theorem cmdAddSteps_map_fst (w : AddWorld) (subnet gatewayAddr : String) :
    (cmdAddSteps w subnet gatewayAddr).map Prod.fst = cmdAddOps := rfl

/-- C8: Ordering within ADD.  In every run of `cmdAdd`'s call sequence:
whenever the container-side address assignment happens, the namespace move
happened strictly before it; whenever the host peer is brought up, the
bridge-port attachment happened strictly before it; and if the namespace
move fails, the run fails and no container-side address assignment is
attempted. -/
theorem cmdAdd_ordering (w : AddWorld) (subnet gatewayAddr : String) :
    (NetOp.addrAddContainer ∈ (cmdAddRun w subnet gatewayAddr).1 →
      (cmdAddRun w subnet gatewayAddr).1.indexOf NetOp.linkSetNsPid
        < (cmdAddRun w subnet gatewayAddr).1.indexOf NetOp.addrAddContainer)
    ∧ (NetOp.linkSetUpPeer ∈ (cmdAddRun w subnet gatewayAddr).1 →
      (cmdAddRun w subnet gatewayAddr).1.indexOf NetOp.linkSetMaster
        < (cmdAddRun w subnet gatewayAddr).1.indexOf NetOp.linkSetUpPeer)
    ∧ (w.setNsPidOk = false →
      (cmdAddRun w subnet gatewayAddr).2 = false
      ∧ NetOp.addrAddContainer ∉ (cmdAddRun w subnet gatewayAddr).1) := by
  have htrace : (cmdAddRun w subnet gatewayAddr).1
      = cmdAddOps.take
          (((cmdAddSteps w subnet gatewayAddr).takeWhile Prod.snd).length + 1) := by
    unfold cmdAddRun
    rw [runSteps_fst, cmdAddSteps_map_fst]
  have hklen : ((cmdAddSteps w subnet gatewayAddr).takeWhile Prod.snd).length ≤ 13 := by
    have h : ((cmdAddSteps w subnet gatewayAddr).takeWhile Prod.snd).length
        ≤ (cmdAddSteps w subnet gatewayAddr).length :=
      (List.takeWhile_sublist _).length_le
    simpa [cmdAddSteps] using h
  have hdec : ∀ n, n ≤ 14 →
      ((NetOp.addrAddContainer ∈ cmdAddOps.take n →
        (cmdAddOps.take n).indexOf NetOp.linkSetNsPid
          < (cmdAddOps.take n).indexOf NetOp.addrAddContainer)
      ∧ (NetOp.linkSetUpPeer ∈ cmdAddOps.take n →
        (cmdAddOps.take n).indexOf NetOp.linkSetMaster
          < (cmdAddOps.take n).indexOf NetOp.linkSetUpPeer)) := by decide
  refine ⟨?_, ?_, ?_⟩
  · rw [htrace]
    exact (hdec _ (by omega)).1
  · rw [htrace]
    exact (hdec _ (by omega)).2
  · intro hns
    constructor
    · unfold cmdAddRun
      rw [runSteps_snd]
      simp [cmdAddSteps, hns]
    · rw [htrace]
      have hk3 : ((cmdAddSteps w subnet gatewayAddr).takeWhile Prod.snd).length ≤ 2 := by
        cases hv : w.linkAddVethOk <;>
          simp [cmdAddSteps, hns, hv, List.takeWhile_cons]
      have hmem : ∀ n, n ≤ 3 → NetOp.addrAddContainer ∉ cmdAddOps.take n := by decide
      exact hmem _ (by omega)

/-- C8 witness: in the all-success world the full call sequence runs, the
container-side address assignment is performed, and the namespace move
indeed sits strictly before it in the trace. -/
theorem cmdAdd_ordering_witness :
    NetOp.addrAddContainer ∈ (cmdAddRun addWorldAllOk "10.0.0.0/24" "10.0.0.1").1
    ∧ (cmdAddRun addWorldAllOk "10.0.0.0/24" "10.0.0.1").1.indexOf NetOp.linkSetNsPid
        < (cmdAddRun addWorldAllOk "10.0.0.0/24" "10.0.0.1").1.indexOf
            NetOp.addrAddContainer :=
  ⟨by decide, (cmdAdd_ordering addWorldAllOk "10.0.0.0/24" "10.0.0.1").1 (by decide)⟩
